import Mathlib

/-!
Shallow embedding of the Mergington High School activities API
(`src/app.py`): a SQLite-backed store with two tables (`activities`,
`participants`), a bootstrap routine `init_db`, and three operations
(`get_activities`, `signup_for_activity`, `unregister_from_activity`).

Modelling choices:
* A database state `DB` holds the `activities` table and the
  `participants` table as lists of rows in insertion (rowid) order,
  plus `nextId`, the next AUTOINCREMENT id for `participants`.
* `max_participants` is `Option Int` (a nullable SQLite INTEGER).
* HTTP failures (`raise HTTPException`) become `Except.error` carrying
  the status code and detail string; the spec's `NotFound` is status
  404 and its `Conflict` is status 400, as in the code.
* The `UNIQUE(activity_name, email)` constraint of the `participants`
  table is modelled in `insertParticipant`, which fails (sqlite
  `IntegrityError`) exactly when the pair is already present.
* Python dicts keep insertion order, so the mapping returned by
  `get_activities` is an association list in insertion order.
-/

namespace App

/-- A row of the `activities` table (`name` is the PRIMARY KEY). -/
structure Activity where
  name : String
  description : String
  schedule : String
  max_participants : Option Int
deriving Repr, DecidableEq

/-- A row of the `participants` table (`id` is AUTOINCREMENT PRIMARY KEY). -/
structure Participant where
  id : Nat
  activity_name : String
  email : String
deriving Repr, DecidableEq

/-- A persisted database state: the two tables plus the next
AUTOINCREMENT id for the `participants` table. -/
structure DB where
  activities : List Activity
  participants : List Participant
  nextId : Nat
deriving Repr, DecidableEq

/-- An HTTP error response (`raise HTTPException(status_code, detail)`). -/
structure HTTPException where
  status_code : Nat
  detail : String
deriving Repr, DecidableEq

instance exceptDecEq {ε α : Type} [DecidableEq ε] [DecidableEq α] :
    DecidableEq (Except ε α) := fun x y =>
  match x, y with
  | Except.ok a, Except.ok b =>
    if h : a = b then Decidable.isTrue (by rw [h])
    else Decidable.isFalse (by intro hc; injection hc; contradiction)
  | Except.ok _, Except.error _ => Decidable.isFalse (by intro hc; cases hc)
  | Except.error _, Except.ok _ => Decidable.isFalse (by intro hc; cases hc)
  | Except.error a, Except.error b =>
    if h : a = b then Decidable.isTrue (by rw [h])
    else Decidable.isFalse (by intro hc; injection hc; contradiction)

/-- `SELECT 1 FROM activities WHERE name = ?` followed by `fetchone`
being truthy. -/
def activityExists (db : DB) (activity_name : String) : Bool :=
  db.activities.any (fun a => a.name == activity_name)

/-- `SELECT 1 FROM participants WHERE activity_name = ? AND email = ?`
followed by `fetchone` being truthy. -/
def isSignedUp (db : DB) (activity_name email : String) : Bool :=
  db.participants.any (fun p => p.activity_name == activity_name && p.email == email)

/-- `SELECT COUNT(*) FROM participants WHERE activity_name = ?`. -/
def countParticipants (db : DB) (activity_name : String) : Nat :=
  (db.participants.filter (fun p => p.activity_name == activity_name)).length

/-- `SELECT ... FROM activities WHERE name = ?` followed by `fetchone`:
the first row of the given name, if any. -/
def findActivity (db : DB) (activity_name : String) : Option Activity :=
  db.activities.find? (fun a => a.name == activity_name)

/-- The Python capacity test `max_p is not None and count >= max_p`. -/
def maxReached : Option Int → Nat → Bool
  | none, _ => false
  | some m, count => decide (m ≤ (count : Int))

/-- `INSERT INTO participants (activity_name, email) VALUES (?, ?)`.
The table's `UNIQUE(activity_name, email)` constraint makes the insert
raise `IntegrityError` when the pair is already present; otherwise the
row gets the next AUTOINCREMENT id and is appended. -/
def insertParticipant (db : DB) (activity_name email : String) : Except Unit DB :=
  if isSignedUp db activity_name email then
    Except.error ()
  else
    Except.ok
      { db with
        participants := db.participants ++ [⟨db.nextId, activity_name, email⟩],
        nextId := db.nextId + 1 }

/-- `POST /activities/{activity_name}/signup` (`signup_for_activity` in
`app.py`): validate existence, duplicate signup, capacity, then insert;
an `IntegrityError` at insert time is translated to the same 400. -/
def signup_for_activity (db : DB) (activity_name email : String) :
    Except HTTPException (DB × String) :=
  match findActivity db activity_name with
  | none => Except.error ⟨404, "Activity not found"⟩
  | some row =>
    if isSignedUp db activity_name email then
      Except.error ⟨400, "Student is already signed up"⟩
    else if maxReached row.max_participants (countParticipants db activity_name) then
      Except.error ⟨400, "Activity is full"⟩
    else
      match insertParticipant db activity_name email with
      | Except.ok db2 => Except.ok (db2, s!"Signed up {email} for {activity_name}")
      | Except.error _ => Except.error ⟨400, "Student is already signed up"⟩

/-- `DELETE /activities/{activity_name}/unregister`
(`unregister_from_activity` in `app.py`): validate existence and
registration, then `DELETE FROM participants WHERE id = ?` using the id
of the row found by the lookup. -/
def unregister_from_activity (db : DB) (activity_name email : String) :
    Except HTTPException (DB × String) :=
  if activityExists db activity_name then
    match db.participants.find? (fun p => p.activity_name == activity_name && p.email == email) with
    | some row =>
      Except.ok
        ({ db with participants := db.participants.filter (fun p => p.id != row.id) },
         s!"Unregistered {email} from {activity_name}")
    | none => Except.error ⟨400, "Student is not signed up for this activity"⟩
  else Except.error ⟨404, "Activity not found"⟩

/-- One entry of the Python `INITIAL_ACTIVITIES` bootstrap catalog. -/
structure SeedActivity where
  name : String
  description : String
  schedule : String
  max_participants : Int
  participants : List String
deriving Repr, DecidableEq

/-- The `INITIAL_ACTIVITIES` catalog from `app.py`, in dict insertion
order. -/
def INITIAL_ACTIVITIES : List SeedActivity :=
  [⟨"Chess Club", "Learn strategies and compete in chess tournaments",
    "Fridays, 3:30 PM - 5:00 PM", 12,
    ["michael@mergington.edu", "daniel@mergington.edu"]⟩,
   ⟨"Programming Class", "Learn programming fundamentals and build software projects",
    "Tuesdays and Thursdays, 3:30 PM - 4:30 PM", 20,
    ["emma@mergington.edu", "sophia@mergington.edu"]⟩,
   ⟨"Gym Class", "Physical education and sports activities",
    "Mondays, Wednesdays, Fridays, 2:00 PM - 3:00 PM", 30,
    ["john@mergington.edu", "olivia@mergington.edu"]⟩,
   ⟨"Soccer Team", "Join the school soccer team and compete in matches",
    "Tuesdays and Thursdays, 4:00 PM - 5:30 PM", 22,
    ["liam@mergington.edu", "noah@mergington.edu"]⟩,
   ⟨"Basketball Team", "Practice and play basketball with the school team",
    "Wednesdays and Fridays, 3:30 PM - 5:00 PM", 15,
    ["ava@mergington.edu", "mia@mergington.edu"]⟩,
   ⟨"Art Club", "Explore your creativity through painting and drawing",
    "Thursdays, 3:30 PM - 5:00 PM", 15,
    ["amelia@mergington.edu", "harper@mergington.edu"]⟩,
   ⟨"Drama Club", "Act, direct, and produce plays and performances",
    "Mondays and Wednesdays, 4:00 PM - 5:30 PM", 20,
    ["ella@mergington.edu", "scarlett@mergington.edu"]⟩,
   ⟨"Math Club", "Solve challenging problems and participate in math competitions",
    "Tuesdays, 3:30 PM - 4:30 PM", 10,
    ["james@mergington.edu", "benjamin@mergington.edu"]⟩,
   ⟨"Debate Team", "Develop public speaking and argumentation skills",
    "Fridays, 4:00 PM - 5:30 PM", 12,
    ["charlotte@mergington.edu", "henry@mergington.edu"]⟩]

/-- One step of the inner seeding loop of `init_db`: insert one
initial participant, silently ignoring `IntegrityError` (the
`try`/`except sqlite3.IntegrityError: pass` in the code). -/
def seedStep (name : String) (acc : DB) (email : String) : DB :=
  match insertParticipant acc name email with
  | Except.ok d => d
  | Except.error _ => acc

/-- The inner seeding loop of `init_db`. -/
def seedParticipants (db : DB) (name : String) (emails : List String) : DB :=
  emails.foldl (seedStep name) db

/-- The `activities` row inserted for one seed catalog entry. -/
def seedRow (s : SeedActivity) : Activity :=
  ⟨s.name, s.description, s.schedule, some s.max_participants⟩

/-- One iteration of the outer seeding loop of `init_db`: insert the
activity row, then its initial participants. -/
def seedActivity (db : DB) (s : SeedActivity) : DB :=
  seedParticipants { db with activities := db.activities ++ [seedRow s] }
    s.name s.participants

/-- `init_db` from `app.py`: the `CREATE TABLE IF NOT EXISTS`
statements are no-ops on the state (a `DB` always has both tables);
then, if `SELECT COUNT(*) FROM activities` is zero, the
`INITIAL_ACTIVITIES` catalog is inserted. -/
def init_db (db : DB) : DB :=
  if db.activities.length = 0 then INITIAL_ACTIVITIES.foldl seedActivity db else db

/-- A value of the mapping returned by `GET /activities`. -/
structure ActivityInfo where
  description : String
  schedule : String
  max_participants : Option Int
  participants : List String
deriving Repr, DecidableEq

/-- The mapping returned by `GET /activities`: a Python dict in
insertion order, modelled as an association list. -/
abbrev ActivityDict := List (String × ActivityInfo)

/-- Python dict assignment `d[k] = v`: overwrite in place when the key
is present (keeping its position), otherwise append. -/
def dictSet (m : ActivityDict) (k : String) (v : ActivityInfo) : ActivityDict :=
  if m.any (fun kv => kv.1 == k) then
    m.map (fun kv => if kv.1 == k then (k, v) else kv)
  else m ++ [(k, v)]

/-- Python `aname in activities` for the result dict. -/
def containsKey (m : ActivityDict) (k : String) : Bool :=
  m.any (fun kv => kv.1 == k)

/-- Python `activities[aname]` (the first entry with the key). -/
def dictFind (m : ActivityDict) (k : String) : Option ActivityInfo :=
  (m.find? (fun kv => kv.1 == k)).map Prod.snd

/-- Python `activities[aname]["participants"].append(email)`. -/
def appendEmail (m : ActivityDict) (aname email : String) : ActivityDict :=
  m.map (fun kv =>
    if kv.1 == aname then
      (kv.1, { kv.2 with participants := kv.2.participants ++ [email] })
    else kv)

/-- One iteration of `build_activity_dict`: `result[name] = {...}`
with an empty participant list. -/
def buildStep (acc : ActivityDict) (r : Activity) : ActivityDict :=
  dictSet acc r.name ⟨r.description, r.schedule, r.max_participants, []⟩

/-- `build_activity_dict` from `app.py`: one dict entry per activity
row, with an empty participant list. -/
def build_activity_dict (rows : List Activity) : ActivityDict :=
  rows.foldl buildStep []

/-- The body of the participant-loading loop of `get_activities`. -/
def loadParticipant (acc : ActivityDict) (row : Participant) : ActivityDict :=
  if containsKey acc row.activity_name then appendEmail acc row.activity_name row.email
  else acc

/-- `GET /activities` (`get_activities` in `app.py`): build the dict of
activity rows, then append each participant email whose activity name
is a key of the dict. -/
def get_activities (db : DB) : ActivityDict :=
  db.participants.foldl loadParticipant (build_activity_dict db.activities)

/-- The state-transforming view of one HTTP request: a failed request
leaves the persisted state unchanged. -/
inductive Op where
  | signup (activity_name email : String)
  | unregister (activity_name email : String)
deriving Repr, DecidableEq

/-- Apply one request to the persisted state; on failure the state is
kept (the handlers mutate nothing before raising). -/
def applyOp (db : DB) : Op → DB
  | Op.signup a e =>
    match signup_for_activity db a e with
    | Except.ok (db2, _) => db2
    | Except.error _ => db
  | Op.unregister a e =>
    match unregister_from_activity db a e with
    | Except.ok (db2, _) => db2
    | Except.error _ => db

/-- Apply a sequence of requests sequentially (non-concurrently). -/
def runOps (db : DB) (ops : List Op) : DB :=
  ops.foldl applyOp db

/-- Spec wording (claim C1, third check): `max_participants` is
non-null and the current participant count for the activity is not
strictly less than `max_participants`. -/
def specCapacityViolated (db : DB) (activity_name : String) : Bool :=
  match findActivity db activity_name with
  | some row =>
    match row.max_participants with
    | some m => decide (¬ ((countParticipants db activity_name : Int) < m))
    | none => false
  | none => false

/-- Spec-side definition of sign-up, following the words of claim C1:
three preconditions checked in order, failing on the first violated
one, otherwise insert the participant record and succeed. Compared
against `signup_for_activity` (the code) by the refinement theorem. -/
def signup_spec (db : DB) (activity_name email : String) :
    Except HTTPException (DB × String) :=
  if activityExists db activity_name = false then
    Except.error ⟨404, "Activity not found"⟩
  else if isSignedUp db activity_name email then
    Except.error ⟨400, "Student is already signed up"⟩
  else if specCapacityViolated db activity_name then
    Except.error ⟨400, "Activity is full"⟩
  else
    Except.ok
      ({ db with
         participants := db.participants ++ [⟨db.nextId, activity_name, email⟩],
         nextId := db.nextId + 1 },
       s!"Signed up {email} for {activity_name}")

/-- The participant emails recorded for one activity, in table order. -/
def participantEmails (db : DB) (activity_name : String) : List String :=
  (db.participants.filter (fun p => p.activity_name == activity_name)).map
    (fun p => p.email)

/-- Referential integrity: every participant row references an
existing activity row. -/
def refIntegrity (db : DB) : Bool :=
  db.participants.all (fun p => db.activities.any (fun a => a.name == p.activity_name))

/-- Capacity invariant for one activity name: if an activity of that
name exists and has a non-null `max_participants`, its participant
count is within the bound. -/
def capOK (db : DB) (activity_name : String) : Bool :=
  ((findActivity db activity_name).bind Activity.max_participants).all
    (fun m => decide ((countParticipants db activity_name : Int) ≤ m))

/-- The AUTOINCREMENT guarantee of the `participants` table: every
stored id is strictly below the next id SQLite will hand out. -/
def idsFresh (db : DB) : Bool :=
  db.participants.all (fun p => p.id < db.nextId)

/-- Schema constraint of the `activities` table: `name` is the PRIMARY
KEY, so activity names are pairwise distinct in any persisted state. -/
def activityNamesNodup (db : DB) : Prop :=
  (db.activities.map (fun a => a.name)).Nodup

instance (db : DB) : Decidable (activityNamesNodup db) := by
  unfold activityNamesNodup; infer_instance

/-- A concrete empty state (fresh database file before bootstrap). -/
def dbEmpty : DB := ⟨[], [], 1⟩

/-- A concrete state with one activity of capacity 2 holding one
participant. -/
def dbChess : DB :=
  ⟨[⟨"Chess Club", "Learn strategies and compete in chess tournaments",
     "Fridays, 3:30 PM - 5:00 PM", some 2⟩],
   [⟨1, "Chess Club", "michael@mergington.edu"⟩], 2⟩

/-- A concrete state holding a participant row whose activity does not
exist (no foreign-key constraint prevents this). -/
def dbOrphan : DB := ⟨[], [⟨1, "Chess Club", "michael@mergington.edu"⟩], 2⟩

end App

namespace App

/-! ## Helper lemmas -/

theorem any_eq_false_iff_find?_eq_none {α : Type} (p : α → Bool) (l : List α) :
    l.any p = false ↔ l.find? p = none := by
  induction l with
  | nil => simp
  | cons x t ih =>
    by_cases hx : p x
    · simp [hx, List.find?_cons]
    · simp only [List.any_cons, List.find?_cons]
      simp only [Bool.not_eq_true] at hx
      simp [hx, ih]

theorem activityExists_false_iff (db : DB) (a : String) :
    activityExists db a = false ↔ findActivity db a = none := by
  unfold activityExists findActivity
  exact any_eq_false_iff_find?_eq_none _ _

theorem activityExists_of_find? {db : DB} {a : String} {row : Activity}
    (h : findActivity db a = some row) :
    activityExists db a = true := by
  unfold findActivity at h
  unfold activityExists
  rw [List.any_eq_true]
  exact ⟨row, List.mem_of_find?_eq_some h, by simpa using List.find?_some h⟩

/-! ## Claim theorems -/

/-- C1: for every state and every `(activity_name, email)` input, the
sign-up operation checks the three preconditions in order — activity
existence (else 404 "Activity not found"), no duplicate signup (else
400 "Student is already signed up"), capacity when `max_participants`
is non-null (else 400 "Activity is full") — failing on the first one
violated, and otherwise inserts the participant record and succeeds.
`signup_spec` is written from the claim's words; the code
(`signup_for_activity`) agrees with it on every state and input. The
spec's `NotFound` is status 404 and its `Conflict` is status 400. -/
theorem C1_signup_checks_in_order (db : DB) (a e : String) :
    signup_for_activity db a e = signup_spec db a e := by
  unfold signup_for_activity signup_spec specCapacityViolated insertParticipant
  cases hf : findActivity db a with
  | none =>
    have hex : activityExists db a = false := (activityExists_false_iff db a).mpr hf
    simp [hex]
  | some row =>
    have hex : activityExists db a = true := activityExists_of_find? hf
    rw [hex]
    by_cases hs : isSignedUp db a e
    · simp [hs]
    · cases hm : row.max_participants with
      | none => simp only [hs, maxReached, Int.not_lt]; rw [hm]; simp
      | some m => simp only [hs, maxReached, Int.not_lt]; rw [hm]; simp

theorem seedStep_activities (n : String) (acc : DB) (e : String) :
    (seedStep n acc e).activities = acc.activities := by
  unfold seedStep insertParticipant
  by_cases h : isSignedUp acc n e
  · simp [h]
  · simp [h]

theorem seedParticipants_activities (emails : List String) (db : DB) (n : String) :
    (seedParticipants db n emails).activities = db.activities := by
  induction emails generalizing db with
  | nil => rfl
  | cons e t ih =>
    show (seedParticipants (seedStep n db e) n t).activities = db.activities
    rw [ih, seedStep_activities]

theorem seedActivity_activities (db : DB) (s : SeedActivity) :
    (seedActivity db s).activities = db.activities ++ [seedRow s] := by
  unfold seedActivity
  rw [seedParticipants_activities]

theorem foldl_seedActivity_activities (l : List SeedActivity) (db : DB) :
    (l.foldl seedActivity db).activities = db.activities ++ l.map seedRow := by
  induction l generalizing db with
  | nil => simp
  | cons s t ih =>
    show (t.foldl seedActivity (seedActivity db s)).activities = _
    rw [ih, seedActivity_activities]
    simp

theorem init_db_noop (db : DB) (h : db.activities ≠ []) : init_db db = db := by
  unfold init_db
  rw [if_neg (by simpa using h)]

/-- C3: bootstrap initialization is idempotent — when the activities
table is non-empty, `init_db` changes nothing (every existing activity
and participant row is kept, none is added), and on any state running
it twice equals running it once. -/
theorem C3_init_db_idempotent (db : DB) :
    (db.activities ≠ [] → init_db db = db) ∧ init_db (init_db db) = init_db db := by
  refine ⟨init_db_noop db, ?_⟩
  by_cases h : db.activities = []
  · have h1 : (init_db db).activities = db.activities ++ INITIAL_ACTIVITIES.map seedRow := by
      unfold init_db
      rw [if_pos (by simp [h])]
      exact foldl_seedActivity_activities _ _
    have h2 : (init_db db).activities ≠ [] := by
      rw [h1, h]
      simp [INITIAL_ACTIVITIES]
    exact init_db_noop _ h2
  · rw [init_db_noop db h]
    exact init_db_noop db h

/-- Witness for C3 at a concrete non-empty state. -/
theorem C3_init_db_idempotent_witness : init_db dbChess = dbChess :=
  (C3_init_db_idempotent dbChess).1 (by decide)

theorem signup_ok_elim {db : DB} {a e : String} {db' : DB} {msg : String}
    (h : signup_for_activity db a e = Except.ok (db', msg)) :
    ∃ row, findActivity db a = some row ∧
      isSignedUp db a e = false ∧
      maxReached row.max_participants (countParticipants db a) = false ∧
      db' = { db with
              participants := db.participants ++ [⟨db.nextId, a, e⟩],
              nextId := db.nextId + 1 } := by
  unfold signup_for_activity insertParticipant at h
  cases hf : findActivity db a with
  | none => rw [hf] at h; exact absurd h (by simp)
  | some row =>
    rw [hf] at h
    by_cases hs : isSignedUp db a e
    · simp [hs] at h
    · by_cases hm : maxReached row.max_participants (countParticipants db a)
      · simp [hs, hm] at h
      · simp only [hs, hm, if_neg, Bool.false_eq_true, if_false] at h
        refine ⟨row, rfl, by simpa using hs, by simpa using hm, ?_⟩
        simp at h
        exact h.1.symm

theorem unregister_ok_elim {db : DB} {a e : String} {db' : DB} {msg : String}
    (h : unregister_from_activity db a e = Except.ok (db', msg)) :
    ∃ row, activityExists db a = true ∧
      db.participants.find? (fun p => p.activity_name == a && p.email == e) = some row ∧
      db' = { db with participants := db.participants.filter (fun p => p.id != row.id) } := by
  unfold unregister_from_activity at h
  by_cases hx : activityExists db a
  · rw [if_pos hx] at h
    cases hf : db.participants.find? (fun p => p.activity_name == a && p.email == e) with
    | none => rw [hf] at h; exact absurd h (by simp)
    | some row =>
      rw [hf] at h
      refine ⟨row, hx, rfl, ?_⟩
      simp at h
      exact h.1.symm
  · rw [if_neg hx] at h
    exact absurd h (by simp)

theorem applyOp_activities (db : DB) (op : Op) :
    (applyOp db op).activities = db.activities := by
  cases op with
  | signup a e =>
    cases h : signup_for_activity db a e with
    | error err => simp [applyOp, h]
    | ok pr =>
      obtain ⟨db2, msg⟩ := pr
      obtain ⟨row, _, _, _, hdb⟩ := signup_ok_elim h
      simp [applyOp, h, hdb]
  | unregister a e =>
    cases h : unregister_from_activity db a e with
    | error err => simp [applyOp, h]
    | ok pr =>
      obtain ⟨db2, msg⟩ := pr
      obtain ⟨row, _, _, hdb⟩ := unregister_ok_elim h
      simp [applyOp, h, hdb]

theorem exists_find_of_activityExists {db : DB} {a : String}
    (hx : activityExists db a = true) :
    ∃ row, findActivity db a = some row := by
  unfold activityExists at hx
  unfold findActivity
  rw [List.any_eq_true] at hx
  obtain ⟨r, hr, hp⟩ := hx
  exact Option.isSome_iff_exists.mp (List.find?_isSome.mpr ⟨r, hr, hp⟩)

theorem capOK_true_of_none {db : DB} {x : String}
    (hfx : findActivity db x = none) : capOK db x = true := by
  unfold capOK
  rw [hfx]
  rfl

theorem capOK_true_of_max_none {db : DB} {x : String} {act : Activity}
    (hfx : findActivity db x = some act) (hmx : act.max_participants = none) :
    capOK db x = true := by
  unfold capOK
  rw [hfx, Option.some_bind, hmx]
  rfl

theorem capOK_eq_of_max_some {db : DB} {x : String} {act : Activity} {m : Int}
    (hfx : findActivity db x = some act) (hmx : act.max_participants = some m) :
    capOK db x = decide ((countParticipants db x : Int) ≤ m) := by
  unfold capOK
  rw [hfx, Option.some_bind, hmx]
  rfl

theorem capOK_applyOp (db : DB) (op : Op) (x : String) (h : capOK db x = true) :
    capOK (applyOp db op) x = true := by
  cases op with
  | signup a e =>
    cases hres : signup_for_activity db a e with
    | error err =>
      have happ : applyOp db (Op.signup a e) = db := by simp [applyOp, hres]
      rw [happ]; exact h
    | ok pr =>
      obtain ⟨db2, msg⟩ := pr
      obtain ⟨row, hf, hs, hm, hdb⟩ := signup_ok_elim hres
      have happ : applyOp db (Op.signup a e) = db2 := by simp [applyOp, hres]
      rw [happ]
      subst hdb
      have hfa : findActivity
          { db with
            participants := db.participants ++ [⟨db.nextId, a, e⟩],
            nextId := db.nextId + 1 } x = findActivity db x := rfl
      cases hfx : findActivity db x with
      | none => exact capOK_true_of_none (hfa.trans hfx)
      | some act =>
        cases hmx : act.max_participants with
        | none => exact capOK_true_of_max_none (hfa.trans hfx) hmx
        | some m =>
          rw [capOK_eq_of_max_some (hfa.trans hfx) hmx]
          rw [capOK_eq_of_max_some hfx hmx] at h
          simp only [decide_eq_true_eq] at h ⊢
          by_cases hax : a = x
          · subst hax
            rw [hf] at hfx
            injection hfx with hact
            rw [hact, hmx] at hm
            unfold maxReached at hm
            simp only [decide_eq_false_iff_not, Int.not_le] at hm
            have hcnt : countParticipants
                { db with
                  participants := db.participants ++ [⟨db.nextId, a, e⟩],
                  nextId := db.nextId + 1 } a = countParticipants db a + 1 := by
              simp [countParticipants, List.filter_append]
            rw [hcnt]
            push_cast
            omega
          · have hcnt : countParticipants
                { db with
                  participants := db.participants ++ [⟨db.nextId, a, e⟩],
                  nextId := db.nextId + 1 } x = countParticipants db x := by
              simp [countParticipants, List.filter_append, hax]
            rw [hcnt]
            exact h
  | unregister a e =>
    cases hres : unregister_from_activity db a e with
    | error err =>
      have happ : applyOp db (Op.unregister a e) = db := by simp [applyOp, hres]
      rw [happ]; exact h
    | ok pr =>
      obtain ⟨db2, msg⟩ := pr
      obtain ⟨row, hx, hfp, hdb⟩ := unregister_ok_elim hres
      have happ : applyOp db (Op.unregister a e) = db2 := by simp [applyOp, hres]
      rw [happ]
      subst hdb
      have hfa : findActivity
          { db with participants := db.participants.filter (fun p => p.id != row.id) } x =
          findActivity db x := rfl
      cases hfx : findActivity db x with
      | none => exact capOK_true_of_none (hfa.trans hfx)
      | some act =>
        cases hmx : act.max_participants with
        | none => exact capOK_true_of_max_none (hfa.trans hfx) hmx
        | some m =>
          rw [capOK_eq_of_max_some (hfa.trans hfx) hmx]
          rw [capOK_eq_of_max_some hfx hmx] at h
          simp only [decide_eq_true_eq] at h ⊢
          have hle : countParticipants
              { db with participants := db.participants.filter (fun p => p.id != row.id) } x ≤
              countParticipants db x := by
            unfold countParticipants
            exact List.Sublist.length_le (List.Sublist.filter _ (List.filter_sublist _))
          omega

/-- C2: applying any sequence of sign-up and unregister requests
sequentially preserves the capacity invariant: if an activity's
participant count is within its non-null `max_participants` bound at
the start, it still is after the whole sequence (hence after every
prefix of it). -/
theorem C2_capacity_never_exceeded (db : DB) (ops : List Op) (x : String)
    (h : capOK db x = true) : capOK (runOps db ops) x = true := by
  induction ops generalizing db with
  | nil => exact h
  | cons op t ih =>
    show capOK (runOps (applyOp db op) t) x = true
    exact ih _ (capOK_applyOp db op x h)

/-- Witness for C2: an activity of capacity 2 with one registration,
followed by two further sign-up attempts. -/
theorem C2_capacity_never_exceeded_witness :
    capOK dbChess "Chess Club" = true ∧
    capOK (runOps dbChess
      [Op.signup "Chess Club" "a@mergington.edu",
       Op.signup "Chess Club" "b@mergington.edu"]) "Chess Club" = true :=
  ⟨by decide,
   C2_capacity_never_exceeded dbChess
     [Op.signup "Chess Club" "a@mergington.edu",
      Op.signup "Chess Club" "b@mergington.edu"] "Chess Club" (by decide)⟩

/-- Counterexample to C5 as stated: in a state where the participant
row exists but the referenced activity does not (no foreign-key
constraint forbids this), a sign-up for the already-registered pair
fails with 404 "Activity not found", not with the Conflict
"Student is already signed up". -/
theorem C5_counterexample :
    isSignedUp dbOrphan "Chess Club" "michael@mergington.edu" = true ∧
    signup_for_activity dbOrphan "Chess Club" "michael@mergington.edu" =
      Except.error ⟨404, "Activity not found"⟩ ∧
    signup_for_activity dbOrphan "Chess Club" "michael@mergington.edu" ≠
      Except.error ⟨400, "Student is already signed up"⟩ := by
  decide

/-- C5 (amended): in every state where the named activity exists and
the pair is already registered, sign-up fails with the 400 Conflict
"Student is already signed up" and the state — in particular the
participants table — is left unchanged. -/
theorem C5_duplicate_signup_conflict (db : DB) (a e : String)
    (hx : activityExists db a = true) (hs : isSignedUp db a e = true) :
    signup_for_activity db a e = Except.error ⟨400, "Student is already signed up"⟩ ∧
    applyOp db (Op.signup a e) = db := by
  obtain ⟨row, hf⟩ := exists_find_of_activityExists hx
  have h1 : signup_for_activity db a e =
      Except.error ⟨400, "Student is already signed up"⟩ := by
    unfold signup_for_activity
    rw [hf]
    simp [hs]
  exact ⟨h1, by simp [applyOp, h1]⟩

/-- Witness for the amended C5 at a concrete registered pair. -/
theorem C5_duplicate_signup_conflict_witness :
    signup_for_activity dbChess "Chess Club" "michael@mergington.edu" =
      Except.error ⟨400, "Student is already signed up"⟩ ∧
    applyOp dbChess (Op.signup "Chess Club" "michael@mergington.edu") = dbChess :=
  C5_duplicate_signup_conflict dbChess "Chess Club" "michael@mergington.edu"
    (by decide) (by decide)

/-- C6: unregister fails with 404 "Activity not found" when the named
activity does not exist, and with 400 "Student is not signed up for
this activity" when the activity exists but the pair is not
registered; in both failure cases the state (hence the participant
count) is unchanged. -/
theorem C6_unregister_failures (db : DB) (a e : String) :
    (activityExists db a = false →
      unregister_from_activity db a e = Except.error ⟨404, "Activity not found"⟩ ∧
      applyOp db (Op.unregister a e) = db) ∧
    (activityExists db a = true → isSignedUp db a e = false →
      unregister_from_activity db a e =
        Except.error ⟨400, "Student is not signed up for this activity"⟩ ∧
      applyOp db (Op.unregister a e) = db) := by
  constructor
  · intro hx
    have h1 : unregister_from_activity db a e =
        Except.error ⟨404, "Activity not found"⟩ := by
      unfold unregister_from_activity
      rw [if_neg (by simp [hx])]
    exact ⟨h1, by simp [applyOp, h1]⟩
  · intro hx hs
    have hn : db.participants.find? (fun p => p.activity_name == a && p.email == e) = none := by
      unfold isSignedUp at hs
      exact (any_eq_false_iff_find?_eq_none _ _).mp hs
    have h1 : unregister_from_activity db a e =
        Except.error ⟨400, "Student is not signed up for this activity"⟩ := by
      unfold unregister_from_activity
      rw [if_pos hx, hn]
    exact ⟨h1, by simp [applyOp, h1]⟩

/-- Witness for C6: both failure branches at concrete inputs. -/
theorem C6_unregister_failures_witness :
    (unregister_from_activity dbChess "Nonexistent Club" "x@mergington.edu" =
        Except.error ⟨404, "Activity not found"⟩ ∧
      applyOp dbChess (Op.unregister "Nonexistent Club" "x@mergington.edu") = dbChess) ∧
    (unregister_from_activity dbChess "Chess Club" "y@mergington.edu" =
        Except.error ⟨400, "Student is not signed up for this activity"⟩ ∧
      applyOp dbChess (Op.unregister "Chess Club" "y@mergington.edu") = dbChess) :=
  ⟨(C6_unregister_failures dbChess "Nonexistent Club" "x@mergington.edu").1 (by decide),
   (C6_unregister_failures dbChess "Chess Club" "y@mergington.edu").2 (by decide) (by decide)⟩

theorem activityExists_congr {db db' : DB} (a : String)
    (h : db'.activities = db.activities) :
    activityExists db' a = activityExists db a := by
  unfold activityExists
  rw [h]

theorem refIntegrity_extend (db : DB) (l : List Activity)
    (h : refIntegrity db = true) :
    refIntegrity { db with activities := db.activities ++ l } = true := by
  unfold refIntegrity at h ⊢
  rw [List.all_eq_true] at h ⊢
  intro p hp
  have hh := h p hp
  simp only [List.any_append]
  simp [hh]

theorem seedStep_refIntegrity (n : String) (acc : DB) (e : String)
    (hmem : activityExists acc n = true) (h : refIntegrity acc = true) :
    refIntegrity (seedStep n acc e) = true := by
  unfold seedStep insertParticipant
  by_cases hs : isSignedUp acc n e
  · simp [hs]
    exact h
  · simp only [hs, Bool.false_eq_true, if_false]
    unfold refIntegrity at h ⊢
    rw [List.all_eq_true] at h ⊢
    intro p hp
    rcases List.mem_append.mp hp with h1 | h2
    · exact h p h1
    · have hp2 : p = ⟨acc.nextId, n, e⟩ := by simpa using h2
      subst hp2
      simpa [activityExists] using hmem

theorem seedParticipants_refIntegrity (es : List String) (db : DB) (n : String)
    (hmem : activityExists db n = true) (h : refIntegrity db = true) :
    refIntegrity (seedParticipants db n es) = true := by
  induction es generalizing db with
  | nil => exact h
  | cons e t ih =>
    show refIntegrity (seedParticipants (seedStep n db e) n t) = true
    apply ih
    · rw [activityExists_congr n (seedStep_activities n db e)]
      exact hmem
    · exact seedStep_refIntegrity n db e hmem h

theorem seedActivity_refIntegrity (db : DB) (s : SeedActivity)
    (h : refIntegrity db = true) : refIntegrity (seedActivity db s) = true := by
  unfold seedActivity
  apply seedParticipants_refIntegrity
  · unfold activityExists
    simp [List.any_append, seedRow]
  · exact refIntegrity_extend db [seedRow s] h

theorem foldl_seedActivity_refIntegrity (l : List SeedActivity) (db : DB)
    (h : refIntegrity db = true) : refIntegrity (l.foldl seedActivity db) = true := by
  induction l generalizing db with
  | nil => exact h
  | cons s t ih =>
    show refIntegrity (t.foldl seedActivity (seedActivity db s)) = true
    exact ih _ (seedActivity_refIntegrity db s h)

theorem init_db_refIntegrity (db : DB) (h : refIntegrity db = true) :
    refIntegrity (init_db db) = true := by
  unfold init_db
  by_cases hc : db.activities.length = 0
  · rw [if_pos hc]
    exact foldl_seedActivity_refIntegrity _ _ h
  · rw [if_neg hc]
    exact h

theorem applyOp_refIntegrity (db : DB) (op : Op) (h : refIntegrity db = true) :
    refIntegrity (applyOp db op) = true := by
  cases op with
  | signup a e =>
    cases hres : signup_for_activity db a e with
    | error err =>
      have happ : applyOp db (Op.signup a e) = db := by simp [applyOp, hres]
      rw [happ]; exact h
    | ok pr =>
      obtain ⟨db2, msg⟩ := pr
      obtain ⟨row, hf, hs, hm, hdb⟩ := signup_ok_elim hres
      have happ : applyOp db (Op.signup a e) = db2 := by simp [applyOp, hres]
      rw [happ]; subst hdb
      unfold refIntegrity at h ⊢
      rw [List.all_eq_true] at h ⊢
      intro p hp
      rcases List.mem_append.mp hp with h1 | h2
      · exact h p h1
      · have hp2 : p = ⟨db.nextId, a, e⟩ := by simpa using h2
        subst hp2
        simpa [activityExists] using activityExists_of_find? hf
  | unregister a e =>
    cases hres : unregister_from_activity db a e with
    | error err =>
      have happ : applyOp db (Op.unregister a e) = db := by simp [applyOp, hres]
      rw [happ]; exact h
    | ok pr =>
      obtain ⟨db2, msg⟩ := pr
      obtain ⟨row, hx, hfp, hdb⟩ := unregister_ok_elim hres
      have happ : applyOp db (Op.unregister a e) = db2 := by simp [applyOp, hres]
      rw [happ]; subst hdb
      unfold refIntegrity at h ⊢
      rw [List.all_eq_true] at h ⊢
      intro p hp
      exact h p (List.mem_of_mem_filter hp)

/-- C8: starting from a state in which every participant row
references an existing activity, every operation preserves this:
bootstrap (`init_db`) and every sign-up/unregister request
(`applyOp`); the list operation reads the state without changing it.
Sign-up in particular inserts only after the activity lookup
succeeded. -/
theorem C8_referential_integrity (db : DB) (h : refIntegrity db = true) :
    refIntegrity (init_db db) = true ∧ ∀ op, refIntegrity (applyOp db op) = true :=
  ⟨init_db_refIntegrity db h, fun op => applyOp_refIntegrity db op h⟩

/-- Witness for C8 at a concrete integral state. -/
theorem C8_referential_integrity_witness :
    refIntegrity (init_db dbChess) = true ∧
    refIntegrity (applyOp dbChess (Op.signup "Chess Club" "z@mergington.edu")) = true :=
  ⟨(C8_referential_integrity dbChess (by decide)).1,
   (C8_referential_integrity dbChess (by decide)).2
     (Op.signup "Chess Club" "z@mergington.edu")⟩

theorem beq_comm_str (x y : String) : (x == y) = (y == x) := by
  by_cases h : x = y
  · rw [h]
  · have h' : ¬ y = x := fun hh => h hh.symm
    simp [h, h']

theorem dictFind_cons (x : String × ActivityInfo) (l : ActivityDict) (k : String) :
    dictFind (x :: l) k = if x.1 == k then some x.2 else dictFind l k := by
  by_cases h : x.1 == k <;> simp [dictFind, List.find?_cons, h]

theorem dictFind_none_of_not_containsKey {m : ActivityDict} {k : String}
    (h : containsKey m k = false) : dictFind m k = none := by
  unfold containsKey at h
  unfold dictFind
  rw [(any_eq_false_iff_find?_eq_none _ _).mp h]
  rfl

theorem containsKey_eq_keys_any (m : ActivityDict) (k : String) :
    containsKey m k = (m.map Prod.fst).any (fun s => s == k) := by
  unfold containsKey
  induction m with
  | nil => rfl
  | cons kv t ih => simp only [List.map_cons, List.any_cons, ih]

theorem appendEmail_keys (m : ActivityDict) (a e : String) :
    (appendEmail m a e).map Prod.fst = m.map Prod.fst := by
  unfold appendEmail
  rw [List.map_map]
  apply List.map_congr_left
  intro kv _
  by_cases h : kv.1 = a
  · simp [h]
  · simp [h]

theorem containsKey_appendEmail (m : ActivityDict) (a e k : String) :
    containsKey (appendEmail m a e) k = containsKey m k := by
  rw [containsKey_eq_keys_any, containsKey_eq_keys_any, appendEmail_keys]

theorem dictSet_keys (m : ActivityDict) (k : String) (v : ActivityInfo) :
    (dictSet m k v).map Prod.fst =
      if containsKey m k then m.map Prod.fst else m.map Prod.fst ++ [k] := by
  unfold dictSet containsKey
  by_cases h : m.any (fun kv => kv.1 == k)
  · rw [if_pos h, if_pos h, List.map_map]
    apply List.map_congr_left
    intro kv _
    by_cases hk : kv.1 = k
    · simp [hk]
    · simp [hk]
  · rw [if_neg h, if_neg h, List.map_append]
    rfl

theorem containsKey_dictSet (m : ActivityDict) (k : String) (v : ActivityInfo)
    (k' : String) :
    containsKey (dictSet m k v) k' = (containsKey m k' || (k' == k)) := by
  rw [containsKey_eq_keys_any, dictSet_keys]
  by_cases h : containsKey m k
  · rw [if_pos h, ← containsKey_eq_keys_any]
    by_cases hk : k' == k
    · have hkk : k' = k := by simpa using hk
      subst hkk
      simp [h]
    · simp [hk]
  · rw [if_neg h, List.any_append, ← containsKey_eq_keys_any]
    simp [beq_comm_str k k']

theorem dictFind_overwrite (m : ActivityDict) (k : String) (v : ActivityInfo)
    (h : m.any (fun kv => kv.1 == k) = true) :
    dictFind (m.map (fun kv => if kv.1 == k then (k, v) else kv)) k = some v := by
  induction m with
  | nil => simp at h
  | cons kv t ih =>
    simp only [List.map_cons]
    by_cases hk : kv.1 == k
    · rw [if_pos hk, dictFind_cons]
      simp
    · rw [if_neg hk, dictFind_cons, if_neg (by simpa using hk)]
      apply ih
      simpa [hk] using h

theorem dictFind_overwrite_other (m : ActivityDict) (k : String) (v : ActivityInfo)
    (k' : String) (hne : (k' == k) = false) :
    dictFind (m.map (fun kv => if kv.1 == k then (k, v) else kv)) k' = dictFind m k' := by
  induction m with
  | nil => rfl
  | cons kv t ih =>
    simp only [List.map_cons]
    by_cases hk : kv.1 == k
    · have h1 : kv.1 = k := by simpa using hk
      have h2 : (k == k') = false := by
        rw [beq_comm_str]
        exact hne
      have h3 : (kv.1 == k') = false := by rw [h1]; exact h2
      have c1 : ¬ (((k, v) : String × ActivityInfo).1 == k') = true := by simp [h2]
      have c2 : ¬ (kv.1 == k') = true := by simp [h3]
      rw [if_pos hk, dictFind_cons, dictFind_cons, if_neg c1, if_neg c2]
      exact ih
    · rw [if_neg hk, dictFind_cons, dictFind_cons, ih]

theorem dictFind_dictSet (m : ActivityDict) (k : String) (v : ActivityInfo)
    (k' : String) :
    dictFind (dictSet m k v) k' = if k' = k then some v else dictFind m k' := by
  unfold dictSet
  by_cases h : m.any (fun kv => kv.1 == k)
  · rw [if_pos h]
    by_cases hk : k' = k
    · subst hk
      rw [if_pos rfl]
      exact dictFind_overwrite m k' v h
    · rw [if_neg hk]
      exact dictFind_overwrite_other m k v k' (by simpa using hk)
  · rw [if_neg h]
    unfold dictFind
    rw [List.find?_append]
    by_cases hk : k' = k
    · subst hk
      have hnone : m.find? (fun kv => kv.1 == k') = none :=
        (any_eq_false_iff_find?_eq_none _ _).mp (Bool.eq_false_iff.mpr h)
      rw [hnone, if_pos rfl]
      simp
    · rw [if_neg hk]
      have hsing : (([(k, v)] : ActivityDict).find? (fun kv => kv.1 == k')) = none := by
        have : (k == k') = false := by
          rw [beq_comm_str]
          simpa using hk
        simp [List.find?_cons, this]
      rw [hsing]
      cases m.find? (fun kv => kv.1 == k') <;> rfl

theorem appendEmail_cons (kv : String × ActivityInfo) (t : ActivityDict) (a e : String) :
    appendEmail (kv :: t) a e =
      (if kv.1 == a then
        (kv.1, { kv.2 with participants := kv.2.participants ++ [e] })
       else kv) :: appendEmail t a e := rfl

theorem dictFind_appendEmail (m : ActivityDict) (a e k : String) :
    dictFind (appendEmail m a e) k =
      if k = a then
        (dictFind m k).map
          (fun info => { info with participants := info.participants ++ [e] })
      else dictFind m k := by
  induction m with
  | nil => by_cases h : k = a <;> simp [appendEmail, dictFind, h]
  | cons kv t ih =>
    rw [appendEmail_cons, dictFind_cons, dictFind_cons]
    by_cases h1 : kv.1 = a <;> by_cases h2 : k = a <;> by_cases h3 : kv.1 = k <;>
      simp_all

theorem loadParticipant_keys (acc : ActivityDict) (row : Participant) :
    (loadParticipant acc row).map Prod.fst = acc.map Prod.fst := by
  unfold loadParticipant
  by_cases h : containsKey acc row.activity_name
  · rw [if_pos h]
    exact appendEmail_keys acc row.activity_name row.email
  · rw [if_neg h]

theorem foldl_load_keys (ps : List Participant) (m : ActivityDict) :
    (ps.foldl loadParticipant m).map Prod.fst = m.map Prod.fst := by
  induction ps generalizing m with
  | nil => rfl
  | cons p t ih =>
    show (t.foldl loadParticipant (loadParticipant m p)).map Prod.fst = _
    rw [ih, loadParticipant_keys]

theorem containsKey_loadParticipant (m : ActivityDict) (row : Participant) (k : String) :
    containsKey (loadParticipant m row) k = containsKey m k := by
  rw [containsKey_eq_keys_any, containsKey_eq_keys_any, loadParticipant_keys]

theorem dictFind_foldl_load (ps : List Participant) (m : ActivityDict) (k : String) :
    dictFind (ps.foldl loadParticipant m) k =
      (dictFind m k).map (fun info =>
        { info with participants := info.participants ++
            (ps.filter (fun p => p.activity_name == k)).map (fun p => p.email) }) := by
  induction ps generalizing m with
  | nil => cases hm : dictFind m k <;> simp [hm]
  | cons p t ih =>
    show dictFind (t.foldl loadParticipant (loadParticipant m p)) k = _
    by_cases hc : containsKey m p.activity_name
    · have hl : loadParticipant m p = appendEmail m p.activity_name p.email := by
        unfold loadParticipant
        rw [if_pos hc]
      rw [hl, ih (appendEmail m p.activity_name p.email), dictFind_appendEmail]
      by_cases hk : k = p.activity_name
      · rw [if_pos hk]
        have hpk : (p.activity_name == k) = true := by simp [hk]
        rw [List.filter_cons, if_pos hpk]
        cases hm : dictFind m k
        · simp
        · simp [List.append_assoc]
      · rw [if_neg hk]
        have hpk : (p.activity_name == k) = false := by
          rw [beq_eq_false_iff_ne]
          exact fun hh => hk hh.symm
        rw [List.filter_cons, if_neg (by simp [hpk])]
    · have hl : loadParticipant m p = m := by
        unfold loadParticipant
        rw [if_neg hc]
      rw [hl, ih m]
      by_cases hk : k = p.activity_name
      · have hn : dictFind m k = none := by
          apply dictFind_none_of_not_containsKey
          rw [hk]
          exact Bool.eq_false_iff.mpr hc
        rw [hn]
        simp
      · have hpk : (p.activity_name == k) = false := by
          rw [beq_eq_false_iff_ne]
          exact fun hh => hk hh.symm
        rw [List.filter_cons, if_neg (by simp [hpk])]

theorem containsKey_foldl_buildStep (rows : List Activity) (acc : ActivityDict)
    (k : String) :
    containsKey (rows.foldl buildStep acc) k =
      (containsKey acc k || rows.any (fun r => r.name == k)) := by
  induction rows generalizing acc with
  | nil => simp
  | cons r t ih =>
    show containsKey (t.foldl buildStep (buildStep acc r)) k = _
    rw [ih, buildStep, containsKey_dictSet, List.any_cons, beq_comm_str k r.name,
      Bool.or_assoc]

theorem foldl_buildStep_keys : ∀ (rows : List Activity) (acc : ActivityDict),
    (∀ r ∈ rows, containsKey acc r.name = false) →
    (rows.map (fun r => r.name)).Nodup →
    (rows.foldl buildStep acc).map Prod.fst =
      acc.map Prod.fst ++ rows.map (fun r => r.name) := by
  intro rows
  induction rows with
  | nil => intro acc _ _; simp
  | cons r t ih =>
    intro acc hfresh hnodup
    show (t.foldl buildStep (buildStep acc r)).map Prod.fst = _
    have hhead : r.name ∉ t.map (fun x => x.name) := (List.nodup_cons.mp hnodup).1
    have hnd := (List.nodup_cons.mp hnodup).2
    have hfr : ∀ x ∈ t, containsKey (buildStep acc r) x.name = false := by
      intro x hx
      rw [buildStep, containsKey_dictSet]
      have h1 : containsKey acc x.name = false := hfresh x (List.mem_cons_of_mem r hx)
      have h2 : (x.name == r.name) = false := by
        rw [beq_eq_false_iff_ne]
        intro hh
        exact hhead (by rw [← hh]; exact List.mem_map_of_mem _ hx)
      rw [h1, h2]
      rfl
    rw [ih (buildStep acc r) hfr hnd]
    have hkeys : (buildStep acc r).map Prod.fst = acc.map Prod.fst ++ [r.name] := by
      rw [buildStep, dictSet_keys, if_neg (by simp [hfresh r (List.mem_cons_self r t)])]
    rw [hkeys, List.map_cons, List.append_assoc]
    rfl

theorem dictFind_foldl_buildStep_not_mem : ∀ (rows : List Activity) (acc : ActivityDict)
    (k : String), (∀ x ∈ rows, ¬ k = x.name) →
    dictFind (rows.foldl buildStep acc) k = dictFind acc k := by
  intro rows
  induction rows with
  | nil => intro acc k _; rfl
  | cons x t ih =>
    intro acc k h
    show dictFind (t.foldl buildStep (buildStep acc x)) k = _
    rw [ih (buildStep acc x) k (fun y hy => h y (List.mem_cons_of_mem x hy)),
      buildStep, dictFind_dictSet, if_neg (h x (List.mem_cons_self x t))]

theorem dictFind_foldl_buildStep_mem : ∀ (rows : List Activity) (acc : ActivityDict)
    (r : Activity), r ∈ rows → (rows.map (fun x => x.name)).Nodup →
    dictFind (rows.foldl buildStep acc) r.name =
      some ⟨r.description, r.schedule, r.max_participants, []⟩ := by
  intro rows
  induction rows with
  | nil => intro acc r hmem _; cases hmem
  | cons x t ih =>
    intro acc r hmem hnodup
    show dictFind (t.foldl buildStep (buildStep acc x)) r.name = _
    have hhead : x.name ∉ t.map (fun y => y.name) := (List.nodup_cons.mp hnodup).1
    have hnd := (List.nodup_cons.mp hnodup).2
    rcases List.mem_cons.mp hmem with hEq | hmem'
    · have hnotin : ∀ y ∈ t, ¬ r.name = y.name := by
        intro y hy hh
        rw [hEq] at hh
        exact hhead (by rw [hh]; exact List.mem_map_of_mem _ hy)
      rw [dictFind_foldl_buildStep_not_mem t (buildStep acc x) r.name hnotin,
        buildStep, dictFind_dictSet, hEq, if_pos rfl]
    · exact ih (buildStep acc x) r hmem' hnd

theorem foldl_load_nil (ps : List Participant) :
    ps.foldl loadParticipant [] = [] := by
  induction ps with
  | nil => rfl
  | cons p t ih =>
    show t.foldl loadParticipant (loadParticipant [] p) = []
    have h : loadParticipant [] p = [] := rfl
    rw [h]
    exact ih

theorem foldl_load_filter (ps : List Participant) (m : ActivityDict) :
    ps.foldl loadParticipant m =
      (ps.filter (fun p => containsKey m p.activity_name)).foldl loadParticipant m := by
  induction ps generalizing m with
  | nil => rfl
  | cons p t ih =>
    show t.foldl loadParticipant (loadParticipant m p) = _
    by_cases hc : containsKey m p.activity_name
    · rw [ih (loadParticipant m p)]
      have hfc : t.filter (fun q => containsKey (loadParticipant m p) q.activity_name) =
          t.filter (fun q => containsKey m q.activity_name) :=
        List.filter_congr (fun q _ => containsKey_loadParticipant m p q.activity_name)
      rw [hfc, List.filter_cons, if_pos hc]
      rfl
    · have hl : loadParticipant m p = m := by
        unfold loadParticipant
        rw [if_neg hc]
      rw [hl, ih m, List.filter_cons, if_neg hc]

/-- C7: `get_activities` is total and returns one entry per activity
row, keyed by activity name in row order, holding the row's
description, schedule, `max_participants`, and the emails of exactly
the participant rows whose `activity_name` matches, in table order;
with no activities it returns the empty mapping. The `Nodup`
hypothesis is the PRIMARY KEY constraint on activity names, which
every persisted state satisfies. -/
theorem C7_get_activities_shape (db : DB) (h : activityNamesNodup db) :
    ((get_activities db).map Prod.fst = db.activities.map (fun r => r.name)) ∧
    (∀ r ∈ db.activities,
      dictFind (get_activities db) r.name =
        some ⟨r.description, r.schedule, r.max_participants,
              participantEmails db r.name⟩) ∧
    (db.activities = [] → get_activities db = []) := by
  unfold activityNamesNodup at h
  refine ⟨?_, ?_, ?_⟩
  · show (db.participants.foldl loadParticipant
      (build_activity_dict db.activities)).map Prod.fst = _
    rw [foldl_load_keys]
    show (db.activities.foldl buildStep []).map Prod.fst = _
    rw [foldl_buildStep_keys db.activities [] (fun r _ => rfl) h]
    rfl
  · intro r hr
    show dictFind (db.participants.foldl loadParticipant
      (build_activity_dict db.activities)) r.name = _
    rw [dictFind_foldl_load]
    unfold build_activity_dict
    rw [dictFind_foldl_buildStep_mem db.activities [] r hr h]
    simp [participantEmails]
  · intro h0
    show db.participants.foldl loadParticipant (build_activity_dict db.activities) = []
    rw [h0]
    exact foldl_load_nil db.participants

/-- Witness for C7 at a concrete state. -/
theorem C7_get_activities_shape_witness :
    ((get_activities dbChess).map Prod.fst = ["Chess Club"]) ∧
    dictFind (get_activities dbChess) "Chess Club" =
      some ⟨"Learn strategies and compete in chess tournaments",
            "Fridays, 3:30 PM - 5:00 PM", some 2, ["michael@mergington.edu"]⟩ :=
  ⟨(C7_get_activities_shape dbChess (by decide)).1,
   (C7_get_activities_shape dbChess (by decide)).2.1
     ⟨"Chess Club", "Learn strategies and compete in chess tournaments",
      "Fridays, 3:30 PM - 5:00 PM", some 2⟩ (by decide)⟩

/-- C10: `get_activities` silently omits orphan participant rows:
dropping every orphan row (one whose `activity_name` matches no
activity row) does not change the result, and appending one orphan row
to the participants table does not change the result. -/
theorem C10_orphan_participants_ignored (db : DB) :
    (get_activities
       { db with participants := (db.participants.filter
           (fun p => db.activities.any (fun a => a.name == p.activity_name))) } =
       get_activities db) ∧
    (∀ p, db.activities.any (fun a => a.name == p.activity_name) = false →
       get_activities { db with participants := db.participants ++ [p] } =
         get_activities db) := by
  have hck : ∀ k, containsKey (build_activity_dict db.activities) k =
      db.activities.any (fun a => a.name == k) := by
    intro k
    show containsKey (db.activities.foldl buildStep []) k = _
    rw [containsKey_foldl_buildStep]
    rfl
  constructor
  · show (db.participants.filter
        (fun p => db.activities.any (fun a => a.name == p.activity_name))).foldl
        loadParticipant (build_activity_dict db.activities) =
      get_activities db
    unfold get_activities
    conv_rhs =>
      rw [foldl_load_filter db.participants (build_activity_dict db.activities)]
    congr 1
    apply List.filter_congr
    intro p _
    exact (hck p.activity_name).symm
  · intro p hp
    show (db.participants ++ [p]).foldl loadParticipant
        (build_activity_dict db.activities) = get_activities db
    rw [List.foldl_append]
    have h1 : containsKey (db.participants.foldl loadParticipant
        (build_activity_dict db.activities)) p.activity_name =
        containsKey (build_activity_dict db.activities) p.activity_name := by
      rw [containsKey_eq_keys_any, containsKey_eq_keys_any, foldl_load_keys]
    have hcond : ¬ containsKey (db.participants.foldl loadParticipant
        (build_activity_dict db.activities)) p.activity_name = true := by
      rw [h1, hck]
      simp [hp]
    show (if containsKey (db.participants.foldl loadParticipant
          (build_activity_dict db.activities)) p.activity_name then
        appendEmail (db.participants.foldl loadParticipant
          (build_activity_dict db.activities)) p.activity_name p.email
      else db.participants.foldl loadParticipant
        (build_activity_dict db.activities)) = _
    rw [if_neg hcond]
    rfl

/-- Witness for C10's second conjunct at a concrete orphan row. -/
theorem C10_orphan_participants_ignored_witness :
    get_activities
      { dbChess with
        participants := dbChess.participants ++ [⟨9, "Knitting Club", "k@mergington.edu"⟩] } =
      get_activities dbChess :=
  (C10_orphan_participants_ignored dbChess).2
    ⟨9, "Knitting Club", "k@mergington.edu"⟩ (by decide)

/-- C4: whenever sign-up succeeds, immediately unregistering the same
pair succeeds and returns the participants table — in particular the
activity's participant list — to exactly its pre-sign-up value.
`idsFresh` is the AUTOINCREMENT guarantee of the `participants` table:
every stored id is below the next id to be handed out. -/
theorem C4_signup_unregister_roundtrip (db : DB) (a e : String) (db1 : DB) (msg : String)
    (hid : idsFresh db = true)
    (hok : signup_for_activity db a e = Except.ok (db1, msg)) :
    ∃ db2 msg2, unregister_from_activity db1 a e = Except.ok (db2, msg2) ∧
      db2.participants = db.participants ∧
      participantEmails db2 a = participantEmails db a := by
  obtain ⟨row, hf, hs, hm, hdb⟩ := signup_ok_elim hok
  subst hdb
  have hx1 : activityExists
      { db with
        participants := db.participants ++ [⟨db.nextId, a, e⟩],
        nextId := db.nextId + 1 } a = true := by
    rw [activityExists_congr a rfl]
    exact activityExists_of_find? hf
  unfold isSignedUp at hs
  have hnone := (any_eq_false_iff_find?_eq_none _ _).mp hs
  have hfind : ({ db with
      participants := db.participants ++ [⟨db.nextId, a, e⟩],
      nextId := db.nextId + 1 } : DB).participants.find?
        (fun p => p.activity_name == a && p.email == e) =
      some ⟨db.nextId, a, e⟩ := by
    show (db.participants ++ [(⟨db.nextId, a, e⟩ : Participant)]).find? _ = _
    rw [List.find?_append, hnone]
    simp
  have hfilter : (db.participants ++ [(⟨db.nextId, a, e⟩ : Participant)]).filter
      (fun p => p.id != db.nextId) = db.participants := by
    rw [List.filter_append]
    have h1 : db.participants.filter (fun p => p.id != db.nextId) = db.participants := by
      rw [List.filter_eq_self]
      intro p hp
      unfold idsFresh at hid
      rw [List.all_eq_true] at hid
      have hlt := hid p hp
      simp at hlt ⊢
      omega
    rw [h1]
    simp
  refine ⟨{ db with participants := db.participants, nextId := db.nextId + 1 },
    s!"Unregistered {e} from {a}", ?_, rfl, rfl⟩
  unfold unregister_from_activity
  rw [if_pos hx1, hfind]
  simp only [Except.ok.injEq, Prod.mk.injEq]
  constructor
  · show ({ db with
      participants := (db.participants ++ [(⟨db.nextId, a, e⟩ : Participant)]).filter
        (fun p => p.id != db.nextId),
      nextId := db.nextId + 1 } : DB) = _
    rw [hfilter]
  · trivial

/-- Witness for C4 at a concrete state and pair. -/
theorem C4_signup_unregister_roundtrip_witness :
    ∃ db2 msg2,
      unregister_from_activity
        { dbChess with
          participants := dbChess.participants ++ [⟨2, "Chess Club", "a@mergington.edu"⟩],
          nextId := 3 } "Chess Club" "a@mergington.edu" = Except.ok (db2, msg2) ∧
      db2.participants = dbChess.participants ∧
      participantEmails db2 "Chess Club" = participantEmails dbChess "Chess Club" :=
  C4_signup_unregister_roundtrip dbChess "Chess Club" "a@mergington.edu"
    { dbChess with
      participants := dbChess.participants ++ [⟨2, "Chess Club", "a@mergington.edu"⟩],
      nextId := 3 }
    "Signed up a@mergington.edu for Chess Club" (by decide) (by decide)

/-- C9: neither sign-up nor unregister ever modifies the `activities`
table — whether the request succeeds or fails, the list of activity
rows (names, descriptions, schedules, capacities) is unchanged; only
the `participants` table is mutated. -/
theorem C9_operations_preserve_activities (db : DB) (a e : String) :
    (applyOp db (Op.signup a e)).activities = db.activities ∧
    (applyOp db (Op.unregister a e)).activities = db.activities :=
  ⟨applyOp_activities db (Op.signup a e), applyOp_activities db (Op.unregister a e)⟩

end App
